import Mathlib

set_option maxHeartbeats 1000000

/-
Verification development for the scribey-companion data pipeline.

Embedded components (from the TypeScript source):
 - the Lua table decoder `luaAstToJson` and `extractScribeyDBFromAST`
   (src/main/file-watcher.ts); the text-to-AST step is the external
   `luaparse` library, so the embedding starts from the AST shape that
   library produces and the code consumes;
 - the domain extractor `parseLuaData` / `parseScribeyCharacterFromJson`;
 - the change detector `handleFileChange`;
 - the upload queue `processUploadQueue` / `uploadSingleItem`
   (src/main/data-uploader.ts);
 - the config provider `updateCharacterSync` (src/main/config-manager.ts).

JavaScript runtime values produced by the decoder are modelled by
`RawValue` (null and undefined are merged into `.nil`: both are falsy and
both throw on property access, which is all the code observes; NaN is kept
as a distinguished value).  JS objects are association lists in insertion
order with unique keys (the numeric-key reordering of JS property order is
not modelled; no code path depends on enumeration order).
-/

inductive RawValue where
  | nil
  | nan
  | bool (b : Bool)
  | num (n : Int)
  | str (s : String)
  | arr (elems : List RawValue)
  | obj (fields : List (String × RawValue))
deriving Repr

/-- JS truthiness of a `RawValue` (`null`, `undefined`, `NaN`, `false`, `0`,
`""` are falsy; arrays and objects are always truthy). -/
def jsTruthy : RawValue → Bool
  | .nil => false
  | .nan => false
  | .bool b => b
  | .num n => n != 0
  | .str s => s != ""
  | .arr _ => true
  | .obj _ => true

def RawValue.isNil : RawValue → Bool
  | .nil => true
  | _ => false

def RawValue.isArr : RawValue → Bool
  | .arr _ => true
  | _ => false

/-- Lookup in an association list (JS `Map.get` / object property read on
an own key). -/
def assocLookup {α : Type} : List (String × α) → String → Option α
  | [], _ => none
  | p :: rest, k => if p.1 = k then some p.2 else assocLookup rest k

/-- Update-or-append (JS `Map.set` / object property assignment): an
existing key keeps its position and gets the new value, a new key is
appended. -/
def assocSet {α : Type} : List (String × α) → String → α → List (String × α)
  | [], k, v => [(k, v)]
  | p :: rest, k, v => if p.1 = k then (k, v) :: rest else p :: assocSet rest k v

/-- JS property access `v[k]`; `none` models `undefined`.  (Property access
on `null`/`undefined` throws; callers model that explicitly.) -/
def jsGetField : RawValue → String → Option RawValue
  | .obj fields, k => assocLookup fields k
  | _, _ => none

/-- JS `a || b` where `a` may be `undefined` (`none`). -/
def jsOr (a : Option RawValue) (b : RawValue) : RawValue :=
  match a with
  | some v => if jsTruthy v then v else b
  | none => b

mutual
/-- JS `String(v)` as used by `Object.fromEntries` key conversion. -/
def jsToStr : RawValue → String
  | .nil => "null"
  | .nan => "NaN"
  | .bool true => "true"
  | .bool false => "false"
  | .num n => toString n
  | .str s => s
  | .arr xs => String.intercalate "," (jsToStrElems xs)
  | .obj _ => "[object Object]"

/-- `Array.prototype.toString` joins elements with `,`, rendering
`null`/`undefined` elements as the empty string. -/
def jsToStrElems : List RawValue → List String
  | [] => []
  | .nil :: rest => "" :: jsToStrElems rest
  | x :: rest => jsToStr x :: jsToStrElems rest
end

/-- Key of a `[key, value]` pair fed to `Object.fromEntries`; an
`undefined` key stringifies to `"undefined"`. -/
def jsKeyOfOpt : Option RawValue → String
  | none => "undefined"
  | some v => jsToStr v

/-- `Object.fromEntries`: later pairs overwrite earlier ones, first
insertion position is kept. -/
def objFromEntries (pairs : List (String × RawValue)) : List (String × RawValue) :=
  pairs.foldl (fun acc p => assocSet acc p.1 p.2) []

/-- `Object.entries` on the values the extractor meets: objects yield their
fields, arrays index-value pairs, strings index-character pairs, primitives
nothing. -/
def jsEntries : RawValue → List (String × RawValue)
  | .obj fields => fields
  | .arr xs => xs.enum.map (fun p => (toString p.1, p.2))
  | .str s => s.toList.enum.map (fun p => (toString p.1, RawValue.str (String.singleton p.2)))
  | _ => []

/-
The luaparse AST, as consumed by `luaAstToJson`.  `TableKey` and
`TableKeyString` are treated identically by the source and are merged into
`tableKey`.  Node kinds the converter does not handle are `unsupported`
(the code throws `Can't parse AST node type: ...` for them).
-/
mutual
inductive LuaAst where
  | stringLiteral (value : Option String) (raw : String)
  | numericLiteral (value : Int)
  | booleanLiteral (value : Bool)
  | nilLiteral
  | unaryExpression (operator : String) (argument : LuaAst)
  | identifier (name : String)
  | tableKey (key : LuaAst) (value : LuaAst)
  | tableValue (value : LuaAst)
  | tableConstructorExpression (fields : LuaAstList)
  | localStatement (init : LuaAstList)
  | returnStatement (arguments : LuaAstList)
  | chunk (body : LuaAstList)
  | assignmentStatement (vars : LuaAstList) (init : LuaAstList)
  | unsupported (nodeType : String)

/-- A node list of the AST (`ast.fields`, `ast.body`, `ast.variables`,
`ast.init`), kept as a mutual inductive so the converter is structurally
recursive. -/
inductive LuaAstList where
  | nil
  | cons (head : LuaAst) (tail : LuaAstList)
end

/-- Build a node list from a `List` literal. -/
def LuaAstList.ofList : List LuaAst → LuaAstList
  | [] => .nil
  | x :: rest => .cons x (LuaAstList.ofList rest)

def LuaAstList.tail : LuaAstList → LuaAstList
  | .nil => .nil
  | .cons _ t => t

/-- `ast.fields[0] && ast.fields[0].key`: only `TableKey`/`TableKeyString`
field nodes carry a `key` property. -/
def firstFieldHasKey : LuaAstList → Bool
  | .cons (.tableKey _ _) _ => true
  | _ => false

mutual
/--
`FileWatcher.luaAstToJson` (file-watcher.ts lines 729-802).  Throws are
modelled by `Except.error`.  Two JS conversions the claims never exercise
are approximated: a numeric literal holds an `Int` (Lua numbers are
doubles), and unary minus of a string/array/object yields `.nan` instead of
JS's `Number(...)` coercion.
-/
def luaAstToJson : LuaAst → Except String RawValue
  | .stringLiteral value raw =>
    match value with
    | some v => .ok (.str v)
    | none =>
      if raw ≠ "" then .ok (.str ((raw.drop 1).dropRight 1))
      else .ok (.str "")
  | .numericLiteral n => .ok (.num n)
  | .booleanLiteral b => .ok (.bool b)
  | .nilLiteral => .ok .nil
  | .unaryExpression op a =>
    if op = "-" then
      match luaAstToJson a with
      | .error e => .error e
      | .ok (.num n) => .ok (.num (-n))
      | .ok (.bool b) => .ok (.num (if b then -1 else 0))
      | .ok .nil => .ok (.num 0)
      | .ok _ => .ok .nan
    else .error "Cannot parse AST node type: UnaryExpression"
  | .identifier name => .ok (.str name)
  | .tableKey k v =>
    match luaAstToJson k with
    | .error e => .error e
    | .ok kj =>
      match luaAstToJson v with
      | .error e => .error e
      | .ok vj =>
        .ok (.obj [("__internal_table_key", .bool true), ("key", kj), ("value", vj)])
  | .tableValue v => luaAstToJson v
  | .tableConstructorExpression fields =>
    if firstFieldHasKey fields then
      match mapFieldsToPairs fields with
      | .error e => .error e
      | .ok pairs =>
        let object := objFromEntries pairs
        .ok (if object.length = 0 then .arr [] else .obj object)
    else
      match arrFieldsToVals fields with
      | .error e => .error e
      | .ok vals => .ok (.arr vals)
  | .localStatement init =>
    match exprListToJson init with
    | .error e => .error e
    | .ok values => .ok (if values.length = 1 then values.headD .nil else .arr values)
  | .returnStatement args =>
    match exprListToJson args with
    | .error e => .error e
    | .ok values => .ok (if values.length = 1 then values.headD .nil else .arr values)
  | .chunk body =>
    match body with
    | .nil => .error "TypeError: cannot read properties of undefined"
    | .cons s _ => luaAstToJson s
  | .assignmentStatement vars init =>
    match assignPairs vars init with
    | .error e => .error e
    | .ok pairs => .ok (.obj (objFromEntries pairs))
  | .unsupported t => .error ("Cannot parse AST node type: " ++ t)

/-- The map branch of the table-constructor case: each field is reduced and
destructured as `const { key, value } = ...` (destructuring `null` throws),
then the pair is fed to `Object.fromEntries` with the key stringified. -/
def mapFieldsToPairs : LuaAstList → Except String (List (String × RawValue))
  | .nil => .ok []
  | .cons f fs =>
    match luaAstToJson f with
    | .error e => .error e
    | .ok r =>
      if r.isNil then .error "TypeError: cannot destructure null value"
      else
        match mapFieldsToPairs fs with
        | .error e => .error e
        | .ok rest =>
          .ok ((jsKeyOfOpt (jsGetField r "key"), (jsGetField r "value").getD .nil) :: rest)

/-- The array branch: each field value is reduced; reading
`value.__internal_table_key` on `null` throws; a truthy marker surfaces the
field as a `[key, value]` pair. -/
def arrFieldsToVals : LuaAstList → Except String (List RawValue)
  | .nil => .ok []
  | .cons f fs =>
    match luaAstToJson f with
    | .error e => .error e
    | .ok v =>
      if v.isNil then .error "TypeError: cannot read properties of null"
      else
        let elem :=
          if jsTruthy ((jsGetField v "__internal_table_key").getD .nil) then
            RawValue.arr [(jsGetField v "key").getD .nil, (jsGetField v "value").getD .nil]
          else v
        match arrFieldsToVals fs with
        | .error e => .error e
        | .ok rest => .ok (elem :: rest)

/-- Reduction of an expression list (`ast.init.map(...)`). -/
def exprListToJson : LuaAstList → Except String (List RawValue)
  | .nil => .ok []
  | .cons e es =>
    match luaAstToJson e with
    | .error err => .error err
    | .ok v =>
      match exprListToJson es with
      | .error err => .error err
      | .ok rest => .ok (v :: rest)

/-- The `AssignmentStatement` case: walk `variables[i]`/`init[i]` in
parallel (the source loop indexes both arrays with `i`), keeping
`result[name] = luaAstToJson(init[i])` for `Identifier` targets whose
`init[i]` exists; once `init` is exhausted no later variable can contribute
(and no further `init` expression is evaluated). -/
def assignPairs : LuaAstList → LuaAstList → Except String (List (String × RawValue))
  | _, .nil => .ok []
  | .nil, _ => .ok []
  | .cons v vs, .cons e es =>
    match v with
    | .identifier name =>
      match luaAstToJson e with
      | .error err => .error err
      | .ok val =>
        match assignPairs vs es with
        | .error err => .error err
        | .ok rest => .ok ((name, val) :: rest)
    | _ => assignPairs vs es
end

/-- Scan one `AssignmentStatement`'s `variables`/`init` arrays for an
`Identifier` named `ScribeyDB` whose `init[i]` exists
(file-watcher.ts lines 809-823). -/
def scribeyInitOfVars : LuaAstList → LuaAstList → Option LuaAst
  | .nil, _ => none
  | .cons v vs, init =>
    match v with
    | .identifier name =>
      if name = "ScribeyDB" then
        match init with
        | .cons e _ => some e
        | .nil => scribeyInitOfVars vs .nil
      else scribeyInitOfVars vs init.tail
    | _ => scribeyInitOfVars vs init.tail

/-- First `ScribeyDB` initializer in statement order over the chunk body. -/
def findScribeyInit : LuaAstList → Option LuaAst
  | .nil => none
  | .cons (.assignmentStatement vars init) rest =>
    match scribeyInitOfVars vars init with
    | some e => some e
    | none => findScribeyInit rest
  | .cons _ rest => findScribeyInit rest

/-- `FileWatcher.extractScribeyDBFromAST` (file-watcher.ts lines 804-832):
return the reduced first matching initializer; the surrounding try/catch
turns a conversion throw into the `null` not-found signal. -/
def extractScribeyDBFromAST (body : LuaAstList) : Option RawValue :=
  match findScribeyInit body with
  | some e =>
    match luaAstToJson e with
    | .ok v => some v
    | .error _ => none
  | none => none

/-
Domain model (file-watcher.ts interfaces).  Fields that the loosely-typed
source can fill with arbitrary decoded values stay `RawValue`; `class` is a
Lean keyword and is written `«class»`.
-/

structure ProfessionData where
  name : RawValue
  skillLevel : RawValue
  maxSkill : RawValue
  recipes : List Int
deriving Repr

structure CharacterData where
  name : RawValue
  realm : RawValue
  cards : List RawValue
  professions : List ProfessionData
  «class» : RawValue
  lastUpdate : Nat
deriving Repr

structure AuctionData where
  lastScan : RawValue
  scanCount : RawValue
  realm : RawValue
  itemCount : Nat
  data : RawValue
deriving Repr

structure AddonData where
  characters : List (String × CharacterData)
  auctionData : AuctionData
  craftedCards : RawValue
  settings : RawValue
  timestamp : Nat
  version : String
deriving Repr

/-- Splitting accumulator: JS `String.prototype.split` with a one-character
separator. -/
def jsSplitAux (sep : Char) : List Char → List Char → List String
  | [], cur => [String.mk cur.reverse]
  | c :: rest, cur =>
    if c = sep then String.mk cur.reverse :: jsSplitAux sep rest []
    else jsSplitAux sep rest (c :: cur)

/-- JS `s.split(sep)` for a single-character separator (always yields at
least one element; empty segments are kept). -/
def jsSplit (s : String) (sep : Char) : List String := jsSplitAux sep s.toList []

/-- The profession loop of `parseScribeyCharacterFromJson`
(file-watcher.ts lines 1222-1234): entries without a truthy `name` are
skipped, `skill_level` defaults to 0 and `max_skill_level` to 525; reading
`prof.name` on a `null` element throws (whole character fails). -/
def parseProfessions : List RawValue → Except Unit (List ProfessionData)
  | [] => .ok []
  | prof :: rest =>
    if prof.isNil then .error ()
    else
      match parseProfessions rest with
      | .error e => .error e
      | .ok restProfs =>
        if jsTruthy ((jsGetField prof "name").getD .nil) then
          .ok ({ name := (jsGetField prof "name").getD .nil,
                 skillLevel := jsOr (jsGetField prof "skill_level") (.num 0),
                 maxSkill := jsOr (jsGetField prof "max_skill_level") (.num 525),
                 recipes := [] } :: restProfs)
        else .ok restProfs

/-- The guarded profession scan: `charData.professions` must be truthy and
an array for the loop to run (every array is truthy in JS, so the guard is
just `Array.isArray`); any other value yields no professions. -/
def professionsOf (charData : RawValue) : Except Unit (List ProfessionData) :=
  match (jsGetField charData "professions").getD .nil with
  | .arr xs => parseProfessions xs
  | _ => .ok []

/-- `FileWatcher.parseScribeyCharacterFromJson` (file-watcher.ts lines
1214-1247).  `now` is `Date.now()`.  Property access on a `null` character
value throws and is caught (`none`); name/realm fall back to splitting the
map key on `-`, realm further to `"Unknown"`, class to `"WARRIOR"`. -/
def parseScribeyCharacterFromJson (now : Nat) (fullName : String) (charData : RawValue) :
    Option CharacterData :=
  if charData.isNil then none
  else
    let parts := jsSplit fullName '-'
    let characterName := jsOr (jsGetField charData "character_name") (.str (parts.headD ""))
    let realmName :=
      jsOr (jsGetField charData "realm_name")
        (jsOr (parts[1]?.map RawValue.str) (.str "Unknown"))
    let wowClass := jsOr (jsGetField charData "class") (.str "WARRIOR")
    match professionsOf charData with
    | .error _ => none
    | .ok professions =>
      some { name := characterName, realm := realmName, cards := [],
             professions := professions, «class» := wowClass, lastUpdate := now }

/-- One iteration of the per-character loop of `parseLuaData`
(file-watcher.ts lines 1140-1166): a successful parse stores the character
under its key, and every key gets a ledger entry recording success or
failure. -/
def charStep (now : Nat)
    (acc : List (String × CharacterData) × List (String × Bool))
    (e : String × RawValue) :
    List (String × CharacterData) × List (String × Bool) :=
  match parseScribeyCharacterFromJson now e.1 e.2 with
  | some c => (assocSet acc.1 e.1 c, acc.2 ++ [(e.1, true)])
  | none => (acc.1, acc.2 ++ [(e.1, false)])

/-- The whole per-character loop, in `Object.entries` order. -/
def parseCharactersLoop (now : Nat) (entries : List (String × RawValue)) :
    List (String × CharacterData) × List (String × Bool) :=
  entries.foldl (charStep now) ([], [])

/-- `FileWatcher.parseLuaData` (file-watcher.ts lines 1075-1212) after the
external `luaparse.parse` call: `body` is the parsed chunk body and
`version` the result of the `extractVersion` regex over the raw text (both
steps happen outside the embedded decoder).  Returns `none` ("no data")
when `ScribeyDB` or its `character_data` section is missing/falsy. -/
def parseLuaData (body : LuaAstList) (version : Option String) (now : Nat) :
    Option AddonData :=
  match extractScribeyDBFromAST body with
  | none => none
  | some scribeyDB =>
    if jsTruthy scribeyDB = false then none
    else
      let characterData := (jsGetField scribeyDB "character_data").getD .nil
      if jsTruthy characterData = false then none
      else
        let entries := jsEntries characterData
        let characters := (parseCharactersLoop now entries).1
        let auctionRaw := (jsGetField scribeyDB "auction_prices").getD .nil
        let auctionData := if jsTruthy auctionRaw then auctionRaw else .obj []
        let auctionItems := (jsGetField auctionData "data").getD .nil
        let auctionItemCount := if jsTruthy auctionItems then (jsEntries auctionItems).length else 0
        some {
          characters := characters,
          auctionData := {
            lastScan := jsOr (jsGetField auctionData "last_scan") (.num 0),
            scanCount := jsOr (jsGetField auctionData "scan_count") (.num 0),
            realm := jsOr (jsGetField auctionData "realm") (.str "Unknown"),
            itemCount := auctionItemCount,
            data := jsOr (jsGetField auctionData "data") (.obj []) },
          craftedCards := jsOr (jsGetField scribeyDB "crafted_cards") (.obj []),
          settings := jsOr (jsGetField scribeyDB "settings") (.obj []),
          timestamp := now,
          version := version.getD "1.0.0" }

/-
Change detector (`FileWatcher.handleFileChange`, file-watcher.ts lines
959-1073).  The file read and the decode pipeline sit at I/O boundaries:
the event carries the bytes read, and `parse` stands for
`parseLuaData(content, path)` (luaparse + the extractor above), of which
the watcher only observes the nullable result.  `enqueued` records the
`dataUploader.uploadData(addonData, filePath)` call.
-/

structure WatcherState where
  lastFileContents : List (String × String)
  lastUploadAttempt : List (String × Nat)
  lastUpdate : Option Nat
deriving Repr

structure FileChangeResult where
  st : WatcherState
  parsed : Bool
  enqueued : Option (AddonData × String)
deriving Repr

/-- `UPLOAD_COOLDOWN` (30 s, in ms). -/
def UPLOAD_COOLDOWN : Nat := 30000

def handleFileChange (parse : String → Option AddonData) (autoUpload : Bool)
    (now : Nat) (filePath content : String) (s : WatcherState) : FileChangeResult :=
  if assocLookup s.lastFileContents filePath = some content then
    { st := s, parsed := false, enqueued := none }
  else
    let s1 : WatcherState :=
      { s with lastFileContents := assocSet s.lastFileContents filePath content,
               lastUpdate := some now }
    let lastUpload := (assocLookup s.lastUploadAttempt filePath).getD 0
    if now - lastUpload < UPLOAD_COOLDOWN then
      { st := s1, parsed := false, enqueued := none }
    else
      match parse content with
      | none => { st := s1, parsed := true, enqueued := none }
      | some addonData =>
        if autoUpload then
          { st := { s1 with lastUploadAttempt := assocSet s1.lastUploadAttempt filePath now },
            parsed := true, enqueued := some (addonData, filePath) }
        else { st := s1, parsed := true, enqueued := none }

/-
Config provider (`ConfigManager`, config-manager.ts) and upload queue
(`DataUploader`, data-uploader.ts).
-/

structure CharacterConfig where
  name : String
  realm : String
  enabled : Bool
  lastSync : Option Nat
deriving Repr, DecidableEq

/-- `ConfigManager.updateCharacterSync` (config-manager.ts lines 505-513):
`characters.find(...)` returns the first entry matching name and realm;
only that entry's `lastSync` is set; no match means nothing is written. -/
def updateCharacterSync (name realm : String) (timestamp : Nat) :
    List CharacterConfig → List CharacterConfig
  | [] => []
  | c :: rest =>
    if c.name = name ∧ c.realm = realm then { c with lastSync := some timestamp } :: rest
    else c :: updateCharacterSync name realm timestamp rest

structure QueueItem where
  data : AddonData
  filePath : String
  timestamp : Nat
deriving Repr

structure UploaderState where
  uploadQueue : List QueueItem
  consecutiveFailures : Nat
  lastUploadAttempt : Nat
  configCharacters : List CharacterConfig
deriving Repr

/-- Outcome of the axios POST for one item: resolved with an HTTP status
(axios resolves only 2xx by default) or rejected (network error, timeout,
non-2xx). -/
inductive HttpResult where
  | resolved (status : Nat)
  | rejected
deriving Repr, DecidableEq

/-- The `name`/`realm` passed to `updateCharacterSync` for one character
key: `const [name, realm] = characterName.split('-')` with
`realm || 'Unknown'`. -/
def syncArgsOfKey (key : String) : String × String :=
  let parts := jsSplit key '-'
  (parts.headD "",
   match parts.get? 1 with
   | some r => if r = "" then "Unknown" else r
   | none => "Unknown")

/-- `DataUploader.uploadSingleItem` (data-uploader.ts lines 177-209)
together with the axios interceptors (lines 47-58): a resolved response
resets the global `consecutiveFailures` to 0 (interceptor), a rejected one
increments it; a resolved non-200 status then throws before any sync
update; on status 200 every character key of the snapshot triggers
`updateCharacterSync`.  Returns the new state, whether the item was
delivered, and the sync calls made. -/
def uploadSingleItem (http : QueueItem → HttpResult) (item : QueueItem)
    (st : UploaderState) : UploaderState × Bool × List (String × String × Nat) :=
  match http item with
  | .rejected => ({ st with consecutiveFailures := st.consecutiveFailures + 1 }, false, [])
  | .resolved status =>
    let st0 := { st with consecutiveFailures := 0 }
    if status ≠ 200 then (st0, false, [])
    else
      let calls := item.data.characters.map (fun p =>
        ((syncArgsOfKey p.1).1, (syncArgsOfKey p.1).2, item.timestamp))
      let cfg := calls.foldl (fun cs c => updateCharacterSync c.1 c.2.1 c.2.2 cs)
        st0.configCharacters
      ({ st0 with configCharacters := cfg }, true, calls)

structure CycleAcc where
  st : UploaderState
  syncCalls : List (String × String × Nat)
deriving Repr

/-- Body of the batch loop of `processUploadQueue` (data-uploader.ts lines
152-162): a failed item is re-added with `unshift` (front of the current
queue) iff the global `consecutiveFailures` counter is below 5, otherwise
it is dropped. -/
def batchStep (http : QueueItem → HttpResult) (acc : CycleAcc) (item : QueueItem) : CycleAcc :=
  match uploadSingleItem http item acc.st with
  | (st1, true, calls) => { st := st1, syncCalls := acc.syncCalls ++ calls }
  | (st1, false, _) =>
    if st1.consecutiveFailures < 5 then
      { st := { st1 with uploadQueue := item :: st1.uploadQueue }, syncCalls := acc.syncCalls }
    else { st := st1, syncCalls := acc.syncCalls }

structure DrainResult where
  state : UploaderState
  success : Bool
  attempted : List QueueItem
  syncCalls : List (String × String × Nat)
deriving Repr

/-- One drain cycle, `DataUploader.processUploadQueue` (data-uploader.ts
lines 129-175), entered with the busy flag free: empty queue returns
immediately; with 3+ consecutive failures inside the backoff window the
cycle aborts without touching the queue or `lastUploadAttempt`; otherwise
the first 5 items are spliced off as a batch, attempted sequentially, and
`lastUploadAttempt` is stamped with `now`. -/
def processUploadQueue (http : QueueItem → HttpResult) (now : Nat)
    (st : UploaderState) : DrainResult :=
  if st.uploadQueue.length = 0 then
    { state := st, success := true, attempted := [], syncCalls := [] }
  else if 3 ≤ st.consecutiveFailures ∧
      now - st.lastUploadAttempt < min (st.consecutiveFailures * 5000) 30000 then
    { state := st, success := false, attempted := [], syncCalls := [] }
  else
    let batch := st.uploadQueue.take 5
    let rest := st.uploadQueue.drop 5
    let acc := List.foldl (batchStep http) ⟨{ st with uploadQueue := rest }, []⟩ batch
    { state := { acc.st with lastUploadAttempt := now }, success := true,
      attempted := batch, syncCalls := acc.syncCalls }

/-- `DataUploader.uploadData` queue append (data-uploader.ts lines 88-93). -/
def enqueueItem (st : UploaderState) (item : QueueItem) : UploaderState :=
  { st with uploadQueue := st.uploadQueue ++ [item] }

/- Concrete values shared by several witnesses. -/

def emptyAddon : AddonData :=
  { characters := [],
    auctionData := { lastScan := .num 0, scanCount := .num 0, realm := .str "Unknown",
                     itemCount := 0, data := .obj [] },
    craftedCards := .obj [], settings := .obj [], timestamp := 0, version := "1.0.0" }

def itemX : QueueItem := { data := emptyAddon, filePath := "X", timestamp := 0 }

def itemY : QueueItem := { data := emptyAddon, filePath := "Y", timestamp := 0 }

def failHttp : QueueItem → HttpResult := fun _ => .rejected

def backoffSt : UploaderState :=
  { uploadQueue := [itemY], consecutiveFailures := 3, lastUploadAttempt := 0,
    configCharacters := [] }

def charA : CharacterData :=
  { name := .str "A", realm := .str "R1", cards := [], professions := [],
    «class» := .str "MAGE", lastUpdate := 0 }

def charB : CharacterData :=
  { name := .str "B", realm := .str "R1", cards := [], professions := [],
    «class» := .str "MAGE", lastUpdate := 0 }

/-- Scenario E snapshot: characters `A-R1` and `B-R1`. -/
def scenEItem : QueueItem :=
  { data := { emptyAddon with characters := [("A-R1", charA), ("B-R1", charB)] },
    filePath := "p", timestamp := 42 }

def okHttp : QueueItem → HttpResult := fun _ => .resolved 200

def scenESt : UploaderState :=
  { uploadQueue := [], consecutiveFailures := 2, lastUploadAttempt := 0,
    configCharacters := [⟨"A", "R1", true, none⟩, ⟨"B", "R1", true, none⟩] }

/-
C1.  The source decides requeue-or-drop with the GLOBAL
`consecutiveFailures` counter (incremented by the HTTP interceptor on
every failed request, for any item), not with a per-item failure count;
queue items carry no failure count at all.  The trace below exhibits a
fresh item X whose first and only delivery attempt fails while the global
counter is already at 5 from another item's failures: X is dropped
permanently even though its own failure count is 1 < 5, contradicting the
claim as stated.
-/

def c1s0 : UploaderState :=
  { uploadQueue := [itemY], consecutiveFailures := 0, lastUploadAttempt := 0,
    configCharacters := [] }

def c1r1 : DrainResult := processUploadQueue failHttp 100000 c1s0
def c1r2 : DrainResult := processUploadQueue failHttp 200000 c1r1.state
def c1r3 : DrainResult := processUploadQueue failHttp 300000 c1r2.state
def c1r4 : DrainResult := processUploadQueue failHttp 400000 c1r3.state
def c1r5 : DrainResult := processUploadQueue failHttp 500000 (enqueueItem c1r4.state itemX)

/- Scenario A: the luaparse AST of
`ScribeyDB = { character_data = { ["Foo-Bar"] = { character_name="Foo",
realm_name="Bar", class="MAGE",
professions={{name="Tailoring",skill_level=300,max_skill_level=300}} } } }`. -/

def scenarioAProf : LuaAst :=
  .tableConstructorExpression (.ofList
    [ .tableKey (.identifier "name") (.stringLiteral (some "Tailoring") "\"Tailoring\""),
      .tableKey (.identifier "skill_level") (.numericLiteral 300),
      .tableKey (.identifier "max_skill_level") (.numericLiteral 300) ])

def scenarioAChar : LuaAst :=
  .tableConstructorExpression (.ofList
    [ .tableKey (.identifier "character_name") (.stringLiteral (some "Foo") "\"Foo\""),
      .tableKey (.identifier "realm_name") (.stringLiteral (some "Bar") "\"Bar\""),
      .tableKey (.identifier "class") (.stringLiteral (some "MAGE") "\"MAGE\""),
      .tableKey (.identifier "professions")
        (.tableConstructorExpression (.ofList [ .tableValue scenarioAProf ])) ])

def scenarioABody : LuaAstList :=
  .ofList
    [ .assignmentStatement (.ofList [.identifier "ScribeyDB"])
        (.ofList
          [ .tableConstructorExpression (.ofList
              [ .tableKey (.identifier "character_data")
                  (.tableConstructorExpression (.ofList
                    [ .tableKey (.stringLiteral (some "Foo-Bar") "\"Foo-Bar\"") scenarioAChar ])) ]) ]) ]

/-- The `RawValue` tree `extractScribeyDBFromAST` produces on Scenario A. -/
def scenarioARaw : RawValue :=
  .obj [("character_data",
    .obj [("Foo-Bar",
      .obj [("character_name", .str "Foo"), ("realm_name", .str "Bar"),
            ("class", .str "MAGE"),
            ("professions", .arr [.obj [("name", .str "Tailoring"),
                                        ("skill_level", .num 300),
                                        ("max_skill_level", .num 300)]])])])]

/- C9: the body `x, ScribeyDB = 1` followed by `ScribeyDB = 2`. -/
def c9Body : LuaAstList :=
  .ofList
    [ .assignmentStatement (.ofList [.identifier "x", .identifier "ScribeyDB"])
        (.ofList [.numericLiteral 1]),
      .assignmentStatement (.ofList [.identifier "ScribeyDB"])
        (.ofList [.numericLiteral 2]) ]

/- Helper lemmas about the association-list primitives. -/

theorem assocLookup_assocSet_self {α : Type} :
    ∀ (m : List (String × α)) (k : String) (v : α),
      assocLookup (assocSet m k v) k = some v := by
  intro m k v
  induction m with
  | nil => simp [assocSet, assocLookup]
  | cons p rest ih =>
    by_cases h : p.1 = k
    · simp [assocSet, assocLookup, h]
    · simp [assocSet, assocLookup, h, ih]

theorem mem_keys_assocSet_self {α : Type} :
    ∀ (m : List (String × α)) (k : String) (v : α),
      k ∈ (assocSet m k v).map Prod.fst := by
  intro m k v
  induction m with
  | nil => simp [assocSet]
  | cons p rest ih =>
    by_cases h : p.1 = k
    · simp only [assocSet, if_pos h, List.map_cons, List.mem_cons]
      exact Or.inl (by simp)
    · simp only [assocSet, if_neg h, List.map_cons, List.mem_cons]
      exact Or.inr ih

theorem mem_keys_assocSet_mono {α : Type} :
    ∀ (m : List (String × α)) (k : String) (v : α) (k' : String),
      k' ∈ m.map Prod.fst → k' ∈ (assocSet m k v).map Prod.fst := by
  intro m k v
  induction m with
  | nil => intro k' h; simp at h
  | cons p rest ih =>
    intro k' h
    rw [List.map_cons, List.mem_cons] at h
    by_cases hp : p.1 = k
    · simp only [assocSet, if_pos hp, List.map_cons, List.mem_cons]
      rcases h with h | h
      · exact Or.inl (by rw [h, hp])
      · exact Or.inr h
    · simp only [assocSet, if_neg hp, List.map_cons, List.mem_cons]
      rcases h with h | h
      · exact Or.inl h
      · exact Or.inr (ih k' h)

theorem length_le_assocSet {α : Type} :
    ∀ (m : List (String × α)) (k : String) (v : α),
      m.length ≤ (assocSet m k v).length := by
  intro m k v
  induction m with
  | nil => simp [assocSet]
  | cons p rest ih =>
    by_cases h : p.1 = k
    · simp [assocSet, h]
    · simp [assocSet, h]
      omega

/-- C2: whenever the consecutive-failure counter is at least 3 and less
time than `min(counter * 5000 ms, 30000 ms)` has elapsed since the last
upload attempt, a drain cycle aborts without removing any item from the
queue (the state is untouched) and makes no delivery attempt, so at most
the one attempt that stamped `lastUploadAttempt` occurs within that
backoff window. -/
theorem c2_backoff_window (http : QueueItem → HttpResult) (now : Nat) (st : UploaderState)
    (h1 : 3 ≤ st.consecutiveFailures)
    (h2 : now - st.lastUploadAttempt < min (st.consecutiveFailures * 5000) 30000) :
    (processUploadQueue http now st).state = st ∧
    (processUploadQueue http now st).attempted = [] := by
  unfold processUploadQueue
  by_cases hq : st.uploadQueue.length = 0
  · simp [hq]
  · simp [hq, h1, h2]

/-- C2 witness: a concrete blocked cycle (3 failures, 1 s after the last
attempt, backoff 15 s). -/
theorem c2_backoff_window_witness :
    3 ≤ backoffSt.consecutiveFailures ∧
    1000 - backoffSt.lastUploadAttempt <
      min (backoffSt.consecutiveFailures * 5000) 30000 ∧
    ((processUploadQueue failHttp 1000 backoffSt).state = backoffSt ∧
     (processUploadQueue failHttp 1000 backoffSt).attempted = []) :=
  ⟨by decide, by decide, c2_backoff_window failHttp 1000 backoffSt (by decide) (by decide)⟩

/-- C10: `updateCharacterSync` only rewrites the `lastSync` of an existing
entry matching both name and realm; with no matching configured character
it is a no-op, and it never adds or removes entries nor touches any other
field. -/
theorem c10_update_sync (name realm : String) (ts : Nat) (chars : List CharacterConfig) :
    ((∀ c ∈ chars, ¬(c.name = name ∧ c.realm = realm)) →
      updateCharacterSync name realm ts chars = chars) ∧
    (updateCharacterSync name realm ts chars).length = chars.length ∧
    (updateCharacterSync name realm ts chars).map (fun c => (c.name, c.realm, c.enabled)) =
      chars.map (fun c => (c.name, c.realm, c.enabled)) := by
  induction chars with
  | nil => simp [updateCharacterSync]
  | cons c rest ih =>
    by_cases h : c.name = name ∧ c.realm = realm
    · refine ⟨?_, ?_, ?_⟩
      · intro hall
        exact absurd h (hall c (List.mem_cons_self c rest))
      · simp [updateCharacterSync, h, ih.2.1]
      · simp [updateCharacterSync, h, ih.2.2]
    · refine ⟨?_, ?_, ?_⟩
      · intro hall
        have := ih.1 (fun d hd => hall d (List.mem_cons_of_mem c hd))
        simp [updateCharacterSync, h, this]
      · simp [updateCharacterSync, h, ih.2.1]
      · simp [updateCharacterSync, h, ih.2.2]

/-- C10 witness: updating sync for an unconfigured (name, realm) pair
leaves a concrete one-entry list unchanged. -/
theorem c10_update_sync_witness :
    updateCharacterSync "X" "R" 5 [⟨"A", "R1", true, none⟩] = [⟨"A", "R1", true, none⟩] :=
  (c10_update_sync "X" "R" 5 [⟨"A", "R1", true, none⟩]).1 (by decide)

/-- C8: on a per-item delivery success (a resolved 200 response) the global
consecutive-failure counter is reset to 0, the item counts as delivered,
and `updateCharacterSync` is invoked (with the key split on `-`) for every
character key of the delivered snapshot, folding into the config state. -/
theorem c8_success_resets_and_syncs (http : QueueItem → HttpResult) (item : QueueItem)
    (st : UploaderState) (h : http item = .resolved 200) :
    (uploadSingleItem http item st).1.consecutiveFailures = 0 ∧
    (uploadSingleItem http item st).2.1 = true ∧
    (∀ p ∈ item.data.characters,
      ((syncArgsOfKey p.1).1, (syncArgsOfKey p.1).2, item.timestamp) ∈
        (uploadSingleItem http item st).2.2) ∧
    (uploadSingleItem http item st).1.configCharacters =
      (uploadSingleItem http item st).2.2.foldl
        (fun cs c => updateCharacterSync c.1 c.2.1 c.2.2 cs) st.configCharacters := by
  have hval : uploadSingleItem http item st =
      ({ st with consecutiveFailures := 0,
                 configCharacters :=
                   (item.data.characters.map (fun p =>
                     ((syncArgsOfKey p.1).1, (syncArgsOfKey p.1).2, item.timestamp))).foldl
                     (fun cs c => updateCharacterSync c.1 c.2.1 c.2.2 cs) st.configCharacters },
        true,
        item.data.characters.map (fun p =>
          ((syncArgsOfKey p.1).1, (syncArgsOfKey p.1).2, item.timestamp))) := by
    unfold uploadSingleItem
    rw [h]
    rfl
  rw [hval]
  refine ⟨rfl, rfl, ?_, rfl⟩
  intro p hp
  exact List.mem_map_of_mem _ hp

/-- C8 witness (Scenario E): delivering the `A-R1`/`B-R1` snapshot resets
the counter and records both sync calls; the config provider ends up with
both `lastSync` timestamps set to the item timestamp. -/
theorem c8_success_resets_and_syncs_witness :
    okHttp scenEItem = .resolved 200 ∧
    ((uploadSingleItem okHttp scenEItem scenESt).1.consecutiveFailures = 0 ∧
     (uploadSingleItem okHttp scenEItem scenESt).2.1 = true ∧
     (∀ p ∈ scenEItem.data.characters,
       ((syncArgsOfKey p.1).1, (syncArgsOfKey p.1).2, scenEItem.timestamp) ∈
         (uploadSingleItem okHttp scenEItem scenESt).2.2) ∧
     (uploadSingleItem okHttp scenEItem scenESt).1.configCharacters =
       (uploadSingleItem okHttp scenEItem scenESt).2.2.foldl
         (fun cs c => updateCharacterSync c.1 c.2.1 c.2.2 cs) scenESt.configCharacters) ∧
    (uploadSingleItem okHttp scenEItem scenESt).1.configCharacters =
      [⟨"A", "R1", true, some 42⟩, ⟨"B", "R1", true, some 42⟩] :=
  ⟨rfl, c8_success_resets_and_syncs okHttp scenEItem scenESt rfl, by rfl⟩

/-- C1 counterexample: across the five drain cycles item X (enqueued after
Y has already failed four times) is attempted exactly once — its own
failure count is 1, below 5 — yet the final queue is empty: X was dropped,
not reinserted at the front as the claim requires. -/
theorem c1_counterexample :
    ((c1r1.attempted ++ c1r2.attempted ++ c1r3.attempted ++ c1r4.attempted ++
        c1r5.attempted).filter (fun i => i.filePath == "X")).length = 1 ∧
    c1r5.attempted.filter (fun i => i.filePath == "X") = [itemX] ∧
    c1r5.state.uploadQueue = [] := by
  refine ⟨rfl, rfl, rfl⟩

/-- C1 (amended): the requeue/drop decision on a per-item failure uses the
global consecutive-failure counter, not a per-item count: the failing item
is reinserted at the front of the current queue iff the incremented global
counter is below 5, otherwise it is dropped.  For a single-item queue
(Scenario D, where the global counter equals the item's own consecutive
failures) a cycle whose delivery fails leaves the item queued iff the
incremented counter is below 5 — so the 5th consecutive failure drops it. -/
theorem c1_amended (http : QueueItem → HttpResult) :
    (∀ acc item, http item = .rejected →
      batchStep http acc item =
        { st := { acc.st with
                    consecutiveFailures := acc.st.consecutiveFailures + 1,
                    uploadQueue :=
                      if acc.st.consecutiveFailures + 1 < 5 then item :: acc.st.uploadQueue
                      else acc.st.uploadQueue },
          syncCalls := acc.syncCalls }) ∧
    (∀ now st item, st.uploadQueue = [item] → http item = .rejected →
      ¬(3 ≤ st.consecutiveFailures ∧
        now - st.lastUploadAttempt < min (st.consecutiveFailures * 5000) 30000) →
      (processUploadQueue http now st).state.consecutiveFailures =
        st.consecutiveFailures + 1 ∧
      (processUploadQueue http now st).state.uploadQueue =
        (if st.consecutiveFailures + 1 < 5 then [item] else [])) := by
  have hstep : ∀ acc item, http item = .rejected →
      batchStep http acc item =
        { st := { acc.st with
                    consecutiveFailures := acc.st.consecutiveFailures + 1,
                    uploadQueue :=
                      if acc.st.consecutiveFailures + 1 < 5 then item :: acc.st.uploadQueue
                      else acc.st.uploadQueue },
          syncCalls := acc.syncCalls } := by
    intro acc item h
    simp only [batchStep, uploadSingleItem, h]
    by_cases h5 : acc.st.consecutiveFailures + 1 < 5
    · simp [h5]
    · simp [h5]
  refine ⟨hstep, ?_⟩
  intro now st item hq h hnb
  have hlen : ¬ st.uploadQueue.length = 0 := by rw [hq]; simp
  unfold processUploadQueue
  rw [if_neg hlen, if_neg hnb, hq]
  simp only [List.take, List.drop, List.foldl]
  rw [hstep ⟨{ st with uploadQueue := [] }, []⟩ item h]
  by_cases h5 : st.consecutiveFailures + 1 < 5
  · simp [h5]
  · simp [h5]

/-- C1 amended witness: Scenario D in one cycle — a single-item queue with
4 prior consecutive failures; the 5th failure drops the item. -/
theorem c1_amended_witness :
    (UploaderState.mk [itemX] 4 0 []).uploadQueue = [itemX] ∧
    failHttp itemX = .rejected ∧
    ¬(3 ≤ (UploaderState.mk [itemX] 4 0 []).consecutiveFailures ∧
      100000 - (UploaderState.mk [itemX] 4 0 []).lastUploadAttempt <
        min ((UploaderState.mk [itemX] 4 0 []).consecutiveFailures * 5000) 30000) ∧
    ((processUploadQueue failHttp 100000 (UploaderState.mk [itemX] 4 0 [])).state.consecutiveFailures = 4 + 1 ∧
     (processUploadQueue failHttp 100000 (UploaderState.mk [itemX] 4 0 [])).state.uploadQueue =
       (if 4 + 1 < 5 then [itemX] else [])) :=
  ⟨rfl, rfl, by decide,
    (c1_amended failHttp).2 100000 (UploaderState.mk [itemX] 4 0 []) itemX rfl rfl (by decide)⟩

/-- If a change event skips because of the per-path cooldown, nothing is
parsed or enqueued but the content cache ends up holding the event's
content. -/
theorem hfc_cooldown_skip (parse : String → Option AddonData) (autoUpload : Bool)
    (now : Nat) (filePath content : String) (s : WatcherState) (t : Nat)
    (ht : assocLookup s.lastUploadAttempt filePath = some t)
    (hc : now - t < UPLOAD_COOLDOWN) :
    (handleFileChange parse autoUpload now filePath content s).parsed = false ∧
    (handleFileChange parse autoUpload now filePath content s).enqueued = none ∧
    assocLookup (handleFileChange parse autoUpload now filePath content s).st.lastFileContents
      filePath = some content := by
  by_cases heq : assocLookup s.lastFileContents filePath = some content
  · simp [handleFileChange, heq]
  · have hcd : now - (assocLookup s.lastUploadAttempt filePath).getD 0 < UPLOAD_COOLDOWN := by
      rw [ht]; exact hc
    simp [handleFileChange, heq, hcd]
    exact assocLookup_assocSet_self _ _ _

/-- An event that enqueued an upload stamped `lastUploadAttempt[path] = now`. -/
theorem hfc_enqueued_stamp (parse : String → Option AddonData) (autoUpload : Bool)
    (now : Nat) (filePath content : String) (s : WatcherState)
    (h : (handleFileChange parse autoUpload now filePath content s).enqueued ≠ none) :
    assocLookup (handleFileChange parse autoUpload now filePath content s).st.lastUploadAttempt
      filePath = some now := by
  by_cases heq : assocLookup s.lastFileContents filePath = some content
  · simp [handleFileChange, heq] at h
  · by_cases hcd : now - (assocLookup s.lastUploadAttempt filePath).getD 0 < UPLOAD_COOLDOWN
    · simp [handleFileChange, heq, hcd] at h
    · cases hp : parse content with
      | none => simp [handleFileChange, heq, hcd, hp] at h
      | some d =>
        cases autoUpload with
        | false => simp [handleFileChange, heq, hcd, hp] at h
        | true =>
          simp [handleFileChange, heq, hcd, hp]
          exact assocLookup_assocSet_self _ _ _

/-- C3: an event whose read bytes equal the cached content for that path is
a complete no-op (no decode, no extraction, no enqueue, state untouched);
consequently feeding the same bytes twice, where the first event passes the
cooldown and decodes, yields exactly one decode/enqueue cycle — the second
event does nothing, whatever its timing. -/
theorem c3_identical_content :
    (∀ parse autoUpload now filePath content s,
      assocLookup s.lastFileContents filePath = some content →
      handleFileChange parse autoUpload now filePath content s =
        { st := s, parsed := false, enqueued := none }) ∧
    (∀ parse now1 now2 filePath content s d,
      assocLookup s.lastFileContents filePath ≠ some content →
      UPLOAD_COOLDOWN ≤ now1 - (assocLookup s.lastUploadAttempt filePath).getD 0 →
      parse content = some d →
      (handleFileChange parse true now1 filePath content s).parsed = true ∧
      (handleFileChange parse true now1 filePath content s).enqueued = some (d, filePath) ∧
      handleFileChange parse true now2 filePath content
          (handleFileChange parse true now1 filePath content s).st =
        { st := (handleFileChange parse true now1 filePath content s).st,
          parsed := false, enqueued := none }) := by
  have hid : ∀ parse autoUpload now filePath content s,
      assocLookup s.lastFileContents filePath = some content →
      handleFileChange parse autoUpload now filePath content s =
        { st := s, parsed := false, enqueued := none } := by
    intro parse au now fp content s h
    simp [handleFileChange, h]
  refine ⟨hid, ?_⟩
  intro parse now1 now2 fp content s d hne hcd hp
  have hnc : ¬ (now1 - (assocLookup s.lastUploadAttempt fp).getD 0 < UPLOAD_COOLDOWN) := by
    omega
  have hfirst : handleFileChange parse true now1 fp content s =
      { st := { lastFileContents := assocSet s.lastFileContents fp content,
                lastUploadAttempt := assocSet s.lastUploadAttempt fp now1,
                lastUpdate := some now1 },
        parsed := true, enqueued := some (d, fp) } := by
    simp [handleFileChange, hne, hnc, hp]
  refine ⟨by rw [hfirst], by rw [hfirst], ?_⟩
  apply hid
  rw [hfirst]
  exact assocLookup_assocSet_self _ _ _

/-- C3 witness: a concrete state where the cache already holds the event's
bytes; the event leaves everything unchanged. -/
theorem c3_identical_content_witness :
    assocLookup (WatcherState.mk [("p", "DATA")] [] none).lastFileContents "p" = some "DATA" ∧
    handleFileChange (fun _ => none) true 50000 "p" "DATA"
        (WatcherState.mk [("p", "DATA")] [] none) =
      { st := WatcherState.mk [("p", "DATA")] [] none, parsed := false, enqueued := none } :=
  ⟨rfl, c3_identical_content.1 (fun _ => none) true 50000 "p" "DATA"
    (WatcherState.mk [("p", "DATA")] [] none) rfl⟩

/-- C4: a change event arriving within the 30 s cooldown of the path's last
recorded upload attempt skips decode/extraction/enqueue but still leaves
the cache holding the event's content; and across two events on one path
less than the cooldown apart, at most one enqueues. -/
theorem c4_cooldown_updates_cache :
    (∀ parse autoUpload now filePath content s t,
      assocLookup s.lastUploadAttempt filePath = some t →
      now - t < UPLOAD_COOLDOWN →
      (handleFileChange parse autoUpload now filePath content s).parsed = false ∧
      (handleFileChange parse autoUpload now filePath content s).enqueued = none ∧
      assocLookup
          (handleFileChange parse autoUpload now filePath content s).st.lastFileContents
          filePath = some content) ∧
    (∀ parse autoUpload now1 now2 filePath c1 c2 s,
      now2 - now1 < UPLOAD_COOLDOWN →
      (handleFileChange parse autoUpload now1 filePath c1 s).enqueued = none ∨
      (handleFileChange parse autoUpload now2 filePath c2
          (handleFileChange parse autoUpload now1 filePath c1 s).st).enqueued = none) := by
  refine ⟨fun parse au now fp content s t ht hc => hfc_cooldown_skip parse au now fp content s t ht hc, ?_⟩
  intro parse au now1 now2 fp c1 c2 s hwin
  by_cases h1 : (handleFileChange parse au now1 fp c1 s).enqueued = none
  · exact Or.inl h1
  · right
    have hstamp := hfc_enqueued_stamp parse au now1 fp c1 s h1
    exact (hfc_cooldown_skip parse au now2 fp c2
      (handleFileChange parse au now1 fp c1 s).st now1 hstamp hwin).2.1

/-- C4 witness: with an upload attempt recorded 1 s ago, a fresh-content
event is skipped but the cache is updated. -/
theorem c4_cooldown_updates_cache_witness :
    assocLookup (WatcherState.mk [] [("p", 10000)] none).lastUploadAttempt "p" = some 10000 ∧
    11000 - 10000 < UPLOAD_COOLDOWN ∧
    ((handleFileChange (fun _ => some emptyAddon) true 11000 "p" "NEW"
        (WatcherState.mk [] [("p", 10000)] none)).parsed = false ∧
     (handleFileChange (fun _ => some emptyAddon) true 11000 "p" "NEW"
        (WatcherState.mk [] [("p", 10000)] none)).enqueued = none ∧
     assocLookup
        (handleFileChange (fun _ => some emptyAddon) true 11000 "p" "NEW"
          (WatcherState.mk [] [("p", 10000)] none)).st.lastFileContents "p" = some "NEW") :=
  ⟨rfl, by decide,
    c4_cooldown_updates_cache.1 (fun _ => some emptyAddon) true 11000 "p" "NEW"
      (WatcherState.mk [] [("p", 10000)] none) 10000 rfl (by decide)⟩

/-- The ledger built by the character loop records one entry per key, in
order, with the success flag of that key's parse. -/
theorem charStep_foldl_ledger (now : Nat) :
    ∀ (entries : List (String × RawValue))
      (acc : List (String × CharacterData) × List (String × Bool)),
      (List.foldl (charStep now) acc entries).2 =
        acc.2 ++ entries.map
          (fun e => (e.1, (parseScribeyCharacterFromJson now e.1 e.2).isSome)) := by
  intro entries
  induction entries with
  | nil => intro acc; simp
  | cons e rest ih =>
    intro acc
    rw [List.foldl_cons, ih]
    cases hp : parseScribeyCharacterFromJson now e.1 e.2 with
    | some c => simp [charStep, hp]
    | none => simp [charStep, hp]

/-- Keys present in the accumulated character map survive the rest of the
loop. -/
theorem charStep_foldl_keys_mono (now : Nat) :
    ∀ (entries : List (String × RawValue))
      (acc : List (String × CharacterData) × List (String × Bool)) (k : String),
      k ∈ acc.1.map Prod.fst →
      k ∈ (List.foldl (charStep now) acc entries).1.map Prod.fst := by
  intro entries
  induction entries with
  | nil => intro acc k h; simpa using h
  | cons e rest ih =>
    intro acc k h
    rw [List.foldl_cons]
    apply ih
    cases hp : parseScribeyCharacterFromJson now e.1 e.2 with
    | some c =>
      simp only [charStep, hp]
      exact mem_keys_assocSet_mono _ _ _ _ h
    | none => simpa [charStep, hp] using h

/-- An entry whose parse succeeds leaves its key in the loop's character
map, no matter what the surrounding entries do. -/
theorem charStep_foldl_keys_of_mem (now : Nat) :
    ∀ (entries : List (String × RawValue))
      (acc : List (String × CharacterData) × List (String × Bool))
      (k : String) (v : RawValue) (c : CharacterData),
      (k, v) ∈ entries → parseScribeyCharacterFromJson now k v = some c →
      k ∈ (List.foldl (charStep now) acc entries).1.map Prod.fst := by
  intro entries
  induction entries with
  | nil => intro acc k v c hm _; simp at hm
  | cons e rest ih =>
    intro acc k v c hm hp
    rw [List.foldl_cons]
    rcases List.mem_cons.mp hm with he | he
    · subst he
      apply charStep_foldl_keys_mono
      simp only [charStep, hp]
      exact mem_keys_assocSet_self _ _ _
    · exact ih (charStep now acc e) k v c he hp

/-- C5: per-character extraction failures are isolated.  For every entry of
the decoded `character_data` section, a failing parse (a throw or a null
return) contributes a failure record to the ledger — and nothing else —
while every entry whose parse succeeds still appears in the resulting
character map, whatever the other entries do. -/
theorem c5_isolated_failures (now : Nat) (entries : List (String × RawValue)) :
    (∀ k v, (k, v) ∈ entries → parseScribeyCharacterFromJson now k v = none →
      (k, false) ∈ (parseCharactersLoop now entries).2) ∧
    (∀ k v c, (k, v) ∈ entries → parseScribeyCharacterFromJson now k v = some c →
      (k, true) ∈ (parseCharactersLoop now entries).2 ∧
      k ∈ (parseCharactersLoop now entries).1.map Prod.fst) := by
  constructor
  · intro k v hm hp
    unfold parseCharactersLoop
    rw [charStep_foldl_ledger now entries ([], [])]
    simp only [List.nil_append]
    exact List.mem_map.mpr ⟨(k, v), hm, by simp [hp]⟩
  · intro k v c hm hp
    constructor
    · unfold parseCharactersLoop
      rw [charStep_foldl_ledger now entries ([], [])]
      simp only [List.nil_append]
      exact List.mem_map.mpr ⟨(k, v), hm, by simp [hp]⟩
    · exact charStep_foldl_keys_of_mem now entries ([], []) k v c hm hp

/-- C5 witness (Scenario C shape): one `nil` (non-map) character entry
fails and is recorded in the ledger; the valid entry still appears. -/
theorem c5_isolated_failures_witness :
    parseScribeyCharacterFromJson 0 "Bad-R" .nil = none ∧
    parseScribeyCharacterFromJson 0 "Good-R" (.obj [("class", .str "MAGE")]) =
      some { name := .str "Good", realm := .str "R", cards := [], professions := [],
             «class» := .str "MAGE", lastUpdate := 0 } ∧
    ("Bad-R", false) ∈
      (parseCharactersLoop 0
        [("Good-R", .obj [("class", .str "MAGE")]), ("Bad-R", .nil)]).2 ∧
    "Good-R" ∈
      (parseCharactersLoop 0
        [("Good-R", .obj [("class", .str "MAGE")]), ("Bad-R", .nil)]).1.map Prod.fst :=
  ⟨rfl, rfl,
    (c5_isolated_failures 0
      [("Good-R", .obj [("class", .str "MAGE")]), ("Bad-R", .nil)]).1
      "Bad-R" .nil (List.mem_cons_of_mem _ (List.mem_cons_self _ _)) rfl,
    ((c5_isolated_failures 0
      [("Good-R", .obj [("class", .str "MAGE")]), ("Bad-R", .nil)]).2
      "Good-R" (.obj [("class", .str "MAGE")])
      { name := .str "Good", realm := .str "R", cards := [], professions := [],
        «class» := .str "MAGE", lastUpdate := 0 }
      (List.mem_cons_self _ _) rfl).2⟩

theorem scenarioA_decode : extractScribeyDBFromAST scenarioABody = some scenarioARaw := rfl

/-- C7: character extraction fallbacks.  Scenario A's table yields exactly
the claimed character under key `Foo-Bar`; in general a truthy explicit
`character_name`/`realm_name` wins, an absent one falls back to splitting
the map key on `-` (realm further to `"Unknown"`), an absent `class`
defaults to `"WARRIOR"`, profession entries without a truthy `name` are
skipped, and absent `skill_level`/`max_skill_level` default to `0` and the
cap `525`. -/
theorem c7_extraction_fallbacks :
    (∀ now, ∃ ad, parseLuaData scenarioABody none now = some ad ∧
      assocLookup ad.characters "Foo-Bar" = some
        { name := .str "Foo", realm := .str "Bar", cards := [],
          professions := [{ name := .str "Tailoring", skillLevel := .num 300,
                            maxSkill := .num 300, recipes := [] }],
          «class» := .str "MAGE", lastUpdate := now }) ∧
    (∀ now fullName cd c, parseScribeyCharacterFromJson now fullName cd = some c →
      (∀ w, jsGetField cd "character_name" = some w → jsTruthy w = true → c.name = w) ∧
      (jsGetField cd "character_name" = none →
        c.name = .str ((jsSplit fullName '-').headD "")) ∧
      (∀ w, jsGetField cd "realm_name" = some w → jsTruthy w = true → c.realm = w) ∧
      (jsGetField cd "realm_name" = none → ∀ r, (jsSplit fullName '-')[1]? = some r →
        r ≠ "" → c.realm = .str r) ∧
      (jsGetField cd "class" = none → c.«class» = .str "WARRIOR")) ∧
    (∀ p rest, p.isNil = false → jsTruthy ((jsGetField p "name").getD .nil) = false →
      parseProfessions (p :: rest) = parseProfessions rest) ∧
    (∀ p rest ps w, p.isNil = false → jsGetField p "name" = some w → jsTruthy w = true →
      jsGetField p "skill_level" = none → jsGetField p "max_skill_level" = none →
      parseProfessions rest = .ok ps →
      parseProfessions (p :: rest) =
        .ok ({ name := w, skillLevel := .num 0, maxSkill := .num 525,
               recipes := [] } :: ps)) := by
  refine ⟨?_, ?_, ?_, ?_⟩
  · intro now
    exact ⟨_, rfl, rfl⟩
  · intro now fullName cd c h
    by_cases hnil : cd.isNil = true
    · simp [parseScribeyCharacterFromJson, hnil] at h
    · cases hpr : professionsOf cd with
      | error e => simp [parseScribeyCharacterFromJson, hnil, hpr] at h
      | ok profs =>
        simp only [parseScribeyCharacterFromJson, hnil, Bool.false_eq_true, if_false,
          hpr, Option.some.injEq] at h
        obtain rfl := h.symm
        refine ⟨?_, ?_, ?_, ?_, ?_⟩
        · intro w hw htw
          simp [hw, jsOr, htw]
        · intro hw
          simp [hw, jsOr]
        · intro w hw htw
          simp [hw, jsOr, htw]
        · intro hw r hr hrne
          have hb : (r != "") = true := bne_iff_ne.mpr hrne
          simp [hw, hr, jsOr, jsTruthy, hb]
        · intro hw
          simp [hw, jsOr]
  · intro p rest hnil hname
    cases hr : parseProfessions rest with
    | error e => simp [parseProfessions, hnil, hname, hr]
    | ok ps => simp [parseProfessions, hnil, hname, hr]
  · intro p rest ps w hnil hw htw hsk hmx hr
    simp [parseProfessions, hnil, hw, htw, hsk, hmx, hr, jsOr]

/-- C7 witness: Scenario A at `now = 0`, plus a concrete fallback instance
(absent `character_name` on a map value with only `class`). -/
theorem c7_extraction_fallbacks_witness :
    (∃ ad, parseLuaData scenarioABody none 0 = some ad ∧
      assocLookup ad.characters "Foo-Bar" = some
        { name := .str "Foo", realm := .str "Bar", cards := [],
          professions := [{ name := .str "Tailoring", skillLevel := .num 300,
                            maxSkill := .num 300, recipes := [] }],
          «class» := .str "MAGE", lastUpdate := 0 }) ∧
    (parseScribeyCharacterFromJson 0 "Foo-Bar" (.obj [("class", .str "MAGE")]) =
      some { name := .str "Foo", realm := .str "Bar", cards := [], professions := [],
             «class» := .str "MAGE", lastUpdate := 0 } ∧
     RawValue.str "Foo" = .str ((jsSplit "Foo-Bar" '-').headD "")) :=
  ⟨c7_extraction_fallbacks.1 0,
    rfl,
    ((c7_extraction_fallbacks.2.1 0 "Foo-Bar" (.obj [("class", .str "MAGE")])
      { name := .str "Foo", realm := .str "Bar", cards := [], professions := [],
        «class» := .str "MAGE", lastUpdate := 0 } rfl).2.1 rfl)⟩

/-- C6 counterexample: the table constructor `{ nil }` has an unkeyed first
field, so per the claim it should reduce to the Array of its fields'
reduced values (`[null]`); instead the converter reads
`__internal_table_key` off the reduced `null` value and throws, aborting
the decode. -/
theorem c6_counterexample :
    firstFieldHasKey (.cons (.tableValue .nilLiteral) .nil) = false ∧
    luaAstToJson (.tableConstructorExpression (.cons (.tableValue .nilLiteral) .nil)) =
      .error "TypeError: cannot read properties of null" :=
  ⟨rfl, rfl⟩

theorem mapFieldsToPairs_cons_ne_nil (f : LuaAst) (fs : LuaAstList)
    (prs : List (String × RawValue)) :
    mapFieldsToPairs (.cons f fs) = .ok prs → prs ≠ [] := by
  intro h
  cases hf : luaAstToJson f with
  | error e => simp [mapFieldsToPairs, hf] at h
  | ok r =>
    by_cases hn : r.isNil = true
    · simp [mapFieldsToPairs, hf, hn] at h
    · cases hr : mapFieldsToPairs fs with
      | error e => simp [mapFieldsToPairs, hf, hn, hr] at h
      | ok rest =>
        simp only [mapFieldsToPairs, hf, hn, Bool.false_eq_true, if_false, hr] at h
        rw [← Except.ok.inj h]
        exact List.cons_ne_nil _ _

theorem foldl_assocSet_length_le :
    ∀ ps : List (String × RawValue),
      ∀ a : List (String × RawValue), a.length ≤
        (List.foldl (fun m p => assocSet m p.1 p.2) a ps).length := by
  intro ps
  induction ps with
  | nil => intro a; simp
  | cons p rest ih =>
    intro a
    rw [List.foldl_cons]
    exact le_trans (length_le_assocSet a p.1 p.2) (ih _)

theorem objFromEntries_ne_nil (prs : List (String × RawValue)) (h : prs ≠ []) :
    objFromEntries prs ≠ [] := by
  cases prs with
  | nil => exact absurd rfl h
  | cons p rest =>
    unfold objFromEntries
    rw [List.foldl_cons]
    intro h0
    have h1 := foldl_assocSet_length_le rest (assocSet [] p.1 p.2)
    rw [h0] at h1
    simp [assocSet] at h1

/-- C6 (amended): reduction of a table constructor classifies on its first
field.  First field keyed: every field is reduced and destructured to a
(key, value) pair whose key is the JS-stringified reduced key expression,
and the node becomes the Map built by `Object.fromEntries`; since the field
list is then nonempty the pair list is too, so the coded
"zero-entry Map becomes `[]`" normalization (also stated below) never
fires on this branch.  First field unkeyed: the node becomes the Array of
the fields' reduced values in order, a later keyed field being surfaced as
a `[key, value]` pair rather than crashing.  However — this is what the
counterexample forces — a field whose reduced VALUE is nil throws a
TypeError in either branch (reading `__internal_table_key` off null, or
destructuring null), aborting the decode, so the rules above hold for
fields with non-nil reduced values. -/
theorem c6_amended :
    (∀ k v kj vj rest prs, luaAstToJson k = .ok kj → luaAstToJson v = .ok vj →
      mapFieldsToPairs rest = .ok prs →
      mapFieldsToPairs (.cons (.tableKey k v) rest) = .ok ((jsToStr kj, vj) :: prs)) ∧
    (∀ k v rest prs, mapFieldsToPairs (.cons (.tableKey k v) rest) = .ok prs →
      luaAstToJson (.tableConstructorExpression (.cons (.tableKey k v) rest)) =
        .ok (.obj (objFromEntries prs))) ∧
    (∀ fields prs, firstFieldHasKey fields = true → mapFieldsToPairs fields = .ok prs →
      objFromEntries prs = [] →
      luaAstToJson (.tableConstructorExpression fields) = .ok (.arr [])) ∧
    (∀ e w rest ws, luaAstToJson e = .ok w → w.isNil = false →
      jsTruthy ((jsGetField w "__internal_table_key").getD .nil) = false →
      arrFieldsToVals rest = .ok ws →
      arrFieldsToVals (.cons (.tableValue e) rest) = .ok (w :: ws)) ∧
    (∀ k v kj vj rest ws, luaAstToJson k = .ok kj → luaAstToJson v = .ok vj →
      arrFieldsToVals rest = .ok ws →
      arrFieldsToVals (.cons (.tableKey k v) rest) = .ok (.arr [kj, vj] :: ws)) ∧
    (∀ e rest ws, arrFieldsToVals (.cons (.tableValue e) rest) = .ok ws →
      luaAstToJson (.tableConstructorExpression (.cons (.tableValue e) rest)) =
        .ok (.arr ws)) := by
  refine ⟨?_, ?_, ?_, ?_, ?_, ?_⟩
  · intro k v kj vj rest prs hk hv hrest
    simp [mapFieldsToPairs, luaAstToJson, hk, hv, hrest, jsGetField, assocLookup,
      jsKeyOfOpt, RawValue.isNil]
  · intro k v rest prs h
    have hne : objFromEntries prs ≠ [] :=
      objFromEntries_ne_nil prs (mapFieldsToPairs_cons_ne_nil _ _ _ h)
    have hlen : ¬ ((objFromEntries prs).length = 0) := by
      intro h0
      exact hne (List.length_eq_zero.mp h0)
    simp [luaAstToJson, firstFieldHasKey, h, hlen]
  · intro fields prs hk hm h0
    simp [luaAstToJson, hk, hm, h0]
  · intro e w rest ws he hnil hmk hrest
    simp [arrFieldsToVals, luaAstToJson, he, hnil, hmk, hrest]
  · intro k v kj vj rest ws hk hv hrest
    simp [arrFieldsToVals, luaAstToJson, hk, hv, hrest, jsGetField, assocLookup,
      jsTruthy, RawValue.isNil]
  · intro e rest ws h
    simp [luaAstToJson, firstFieldHasKey, h]

/-- C6 amended witness: a concrete keyed field prepends its stringified
key/value pair. -/
theorem c6_amended_witness :
    luaAstToJson (.identifier "a") = .ok (.str "a") ∧
    luaAstToJson (.numericLiteral 1) = .ok (.num 1) ∧
    mapFieldsToPairs .nil = .ok [] ∧
    mapFieldsToPairs (.cons (.tableKey (.identifier "a") (.numericLiteral 1)) .nil) =
      .ok [(jsToStr (.str "a"), .num 1)] :=
  ⟨rfl, rfl, rfl, c6_amended.1 (.identifier "a") (.numericLiteral 1) (.str "a")
    (.num 1) .nil [] rfl rfl rfl⟩

/-- C9 counterexample: the first top-level assignment (`x, ScribeyDB = 1`)
binds `ScribeyDB` (to nil, being past the initializer list), so per the
claim it is "the first such assignment encountered" and all later matching
assignments should be ignored; the code instead skips a match without a
corresponding initializer and uses the SECOND assignment, returning 2. -/
theorem c9_counterexample : extractScribeyDBFromAST c9Body = some (.num 2) := rfl

/-- A `ScribeyDB` variable positioned past the end of the initializer list
never produces a result: the scan returns none once `init` is exhausted. -/
theorem scribeyInitOfVars_nil_init : (vs : LuaAstList) →
    scribeyInitOfVars vs .nil = none
  | .nil => rfl
  | .cons v vs => by
    have ih := scribeyInitOfVars_nil_init vs
    cases v <;> simp [scribeyInitOfVars, LuaAstList.tail, ih]

/-- C9 (amended): the extraction entry point reduces and returns the first
assignment (in statement order) whose variable list contains `ScribeyDB` at
a position that also has an initializer expression, ignoring everything
after it; a matching assignment without a corresponding initializer is
skipped (Lua would bind nil; the code cannot use it); statements whose scan
finds nothing — including non-assignments — are skipped; an empty body
yields the not-found signal (null). -/
theorem c9_amended :
    (∀ e rest, extractScribeyDBFromAST
        (.cons (.assignmentStatement (.cons (.identifier "ScribeyDB") .nil)
          (.cons e .nil)) rest) =
      (match luaAstToJson e with | .ok v => some v | .error _ => none)) ∧
    (∀ vars init rest, scribeyInitOfVars vars init = none →
      extractScribeyDBFromAST (.cons (.assignmentStatement vars init) rest) =
        extractScribeyDBFromAST rest) ∧
    (∀ vs, scribeyInitOfVars vs .nil = none) ∧
    (extractScribeyDBFromAST .nil = none) := by
  refine ⟨?_, ?_, scribeyInitOfVars_nil_init, rfl⟩
  · intro e rest
    simp [extractScribeyDBFromAST, findScribeyInit, scribeyInitOfVars]
  · intro vars init rest h
    simp [extractScribeyDBFromAST, findScribeyInit, h]

/-- C9 amended witness: a single well-formed `ScribeyDB = 7` assignment is
reduced and returned, with any trailing statements ignored. -/
theorem c9_amended_witness :
    extractScribeyDBFromAST
        (.cons (.assignmentStatement (.cons (.identifier "ScribeyDB") .nil)
          (.cons (.numericLiteral 7) .nil))
          (.cons (.assignmentStatement (.cons (.identifier "ScribeyDB") .nil)
            (.cons (.numericLiteral 8) .nil)) .nil)) =
      (match luaAstToJson (.numericLiteral 7) with
        | .ok v => some v
        | .error _ => none) :=
  c9_amended.1 (.numericLiteral 7)
    (.cons (.assignmentStatement (.cons (.identifier "ScribeyDB") .nil)
      (.cons (.numericLiteral 8) .nil)) .nil)
